import Mathlib

/-!
Verification development for the pokerlib hand engine (d-protocol/pokerlib).

The definitions below are a shallow embedding of the Go sources:
`game.go` (game struct, turn order, allowed actions, round lifecycle),
`deck.go` (single-pass shuffle) and the multi-pass shuffle variant.
Chips are `Int` (Go `int64`; the engine never approaches overflow, so plain
integers are used).  Go slices become `List`, Go maps keyed by seat index
become association-style lookup functions built exactly like the Go
insertions, and Go `nil`-panics become `Option.none`.

Parts of the repository that are referenced by `game.go` but whose files are
not in the source tree (the `player` type's action bodies, the event
dispatcher table, the `pot` package) are modelled from the specification;
each such definition carries a doc comment starting `Modelled from the
spec:`.
-/

namespace Pokerlib

/-- Blind configuration from the game options (`Meta.Blind`). -/
structure BlindSetting where
  dealer : Int
  sb : Int
  bb : Int
  deriving DecidableEq

/-- The immutable per-hand metadata (`Meta`).  Only the fields that the
embedded functions read are carried. -/
structure Meta where
  ante : Int
  blind : BlindSetting
  deck : List String
  deriving DecidableEq

/-- A recorded action (`Action`): source seat (−1 for system), type label,
and value. -/
structure Action where
  source : Int
  type : String
  value : Int
  deriving DecidableEq

/-- Modelled from the spec: a side-pot layer of the missing `pot` package —
\{level, contributors, total\} (winners omitted; never read here). -/
structure Pot where
  level : Int
  total : Int
  contributors : List Int
  deriving DecidableEq

/-- The mutable game status (`GameState.Status`).  Defaults are the Go zero
values of the corresponding fields. -/
structure Status where
  round : String := ""
  currentEvent : String := ""
  board : List String := []
  burned : List String := []
  currentDeckPosition : Nat := 0
  miniBet : Int := 0
  previousRaiseSize : Int := 0
  maxWager : Int := 0
  currentWager : Int := 0
  currentRoundPot : Int := 0
  currentPlayer : Int := -1
  currentRaiser : Int := 0
  lastAction : Option Action := none
  pots : List Pot := []
  deriving DecidableEq

/-- Per-seat player state (`PlayerState`).  Hole cards and the combination
record are omitted: no embedded function reads them. -/
structure PlayerState where
  idx : Int
  positions : List String
  bankroll : Int
  initialStackSize : Int
  stackSize : Int
  wager : Int := 0
  pot : Int := 0
  fold : Bool := false
  vpip : Bool := false
  acted : Bool := false
  didAction : String := ""
  allowedActions : List String := []
  deriving DecidableEq

/-- The full game state (`GameState`): meta, status and the player list. -/
structure GameState where
  meta : Meta
  status : Status
  players : List PlayerState
  deriving DecidableEq

/-- `game.GetPlayerCount`: the length of the player list. -/
def playerCount (gs : GameState) : Nat :=
  gs.players.length

/-- Go slice indexing with an `int` index: negative or too-large indexes
panic in Go, modelled as `none`. -/
def listGetI (l : List α) (i : Int) : Option α :=
  if i < 0 then none else l.get? i.toNat

/-- The seat-keyed player map of the `game` struct, built exactly like the
`g.players[state.Idx] = p` insertions of `addPlayer` over `gs.Players`
(later insertions overwrite earlier ones). -/
def buildPlayersMap (l : List PlayerState) : Int → Option PlayerState :=
  l.foldl (fun m p => fun k => if k = p.idx then some p else m k) (fun _ => none)

/-- `game.Player(idx)`: `nil` for out-of-range indexes, otherwise the map
lookup. -/
def gamePlayer (gs : GameState) (idx : Int) : Option PlayerState :=
  if idx < 0 ∨ (playerCount gs : Int) ≤ idx then none
  else buildPlayersMap gs.players idx

/-- Modelled from the spec: `player.CheckPosition` of the missing player
file — membership of the position tag in the player's position list. -/
def checkPosition (p : PlayerState) (pos : String) : Bool :=
  p.positions.contains pos

/-- `game.Dealer`: the `g.dealer` field, assigned by the `addPlayer` loop —
the last player whose positions contain "dealer". -/
def dealerOf (gs : GameState) : Option PlayerState :=
  gs.players.foldl (fun d p => if checkPosition p "dealer" then some p else d) none

/-- `game.GetAlivePlayerCount`: the player count minus the folded players,
i.e. the number of non-folded players. -/
def getAlivePlayerCount (gs : GameState) : Nat :=
  gs.players.countP (fun p => !p.fold)

/-- `game.GetMovablePlayerCount`: the player count minus the players that
are folded or have an empty stack. -/
def getMovablePlayerCount (gs : GameState) : Nat :=
  gs.players.countP (fun p => !(p.fold || p.stackSize == 0))

/-- `game.NextPlayer`.  The Go loop body returns unconditionally on its
first iteration, so for two or more players the function returns the seat
immediately after the current one (with wrap-around), whatever its fold or
stack status; with fewer than two players the loop never runs and it
returns `nil`. -/
def nextPlayer (gs : GameState) : Option PlayerState :=
  let n := playerCount gs
  if 2 ≤ n then
    let cur := gs.status.currentPlayer + 1
    let cur := if cur = (n : Int) then 0 else cur
    match listGetI gs.players cur with
    | none => none
    | some p => gamePlayer gs p.idx
  else none

/-- The game events of the engine.  The constructors are the event symbols
listed in the specification (§6); the event record type itself lives in a
source file that only `game.go` references. -/
inductive GameEvent where
  | started
  | initialized
  | readyRequested
  | anteRequested
  | antePaid
  | blindsRequested
  | blindsPaid
  | preflopRoundEntered
  | flopRoundEntered
  | turnRoundEntered
  | riverRoundEntered
  | roundInitialized
  | roundPrepared
  | roundStarted
  | roundClosed
  | gameCompleted
  | settlementRequested
  | settlementCompleted
  | gameClosed
  deriving DecidableEq

/-- The symbol string of an event, as recorded in `status.currentEvent`. -/
def GameEvent.symbol : GameEvent → String
  | .started => "Started"
  | .initialized => "Initialized"
  | .readyRequested => "ReadyRequested"
  | .anteRequested => "AnteRequested"
  | .antePaid => "AntePaid"
  | .blindsRequested => "BlindsRequested"
  | .blindsPaid => "BlindsPaid"
  | .preflopRoundEntered => "PreflopRoundEntered"
  | .flopRoundEntered => "FlopRoundEntered"
  | .turnRoundEntered => "TurnRoundEntered"
  | .riverRoundEntered => "RiverRoundEntered"
  | .roundInitialized => "RoundInitialized"
  | .roundPrepared => "RoundPrepared"
  | .roundStarted => "RoundStarted"
  | .roundClosed => "RoundClosed"
  | .gameCompleted => "GameCompleted"
  | .settlementRequested => "SettlementRequested"
  | .settlementCompleted => "SettlementCompleted"
  | .gameClosed => "GameClosed"

/-- Modelled from the spec: the `GameEventBySymbol` table of the missing
event-dispatcher file, mapping each symbol of §6 to its event (unknown
symbols give the Go zero value, modelled as `none`). -/
def GameEventBySymbol (s : String) : Option GameEvent :=
  if s = "Started" then some .started
  else if s = "Initialized" then some .initialized
  else if s = "ReadyRequested" then some .readyRequested
  else if s = "AnteRequested" then some .anteRequested
  else if s = "AntePaid" then some .antePaid
  else if s = "BlindsRequested" then some .blindsRequested
  else if s = "BlindsPaid" then some .blindsPaid
  else if s = "PreflopRoundEntered" then some .preflopRoundEntered
  else if s = "FlopRoundEntered" then some .flopRoundEntered
  else if s = "TurnRoundEntered" then some .turnRoundEntered
  else if s = "RiverRoundEntered" then some .riverRoundEntered
  else if s = "RoundInitialized" then some .roundInitialized
  else if s = "RoundPrepared" then some .roundPrepared
  else if s = "RoundStarted" then some .roundStarted
  else if s = "RoundClosed" then some .roundClosed
  else if s = "GameCompleted" then some .gameCompleted
  else if s = "SettlementRequested" then some .settlementRequested
  else if s = "SettlementCompleted" then some .settlementCompleted
  else if s = "GameClosed" then some .gameClosed
  else none

/-- `game.Resume`: if the loaded state records a current event symbol, the
engine re-emits that event; otherwise it returns success without emitting.
The result is the emitted event. -/
def resume (gs : GameState) : Option GameEvent :=
  if 0 < gs.status.currentEvent.length then GameEventBySymbol gs.status.currentEvent
  else none

/-- The error values of `game.go` that the embedded operations can
return. -/
inductive GameErr where
  | noDeck
  | notEnoughBackroll
  | noDealer
  | insufficientNumberOfPlayers
  | unknownRound
  | notFoundDealer
  deriving DecidableEq

/-- `game.Start`.  The configuration guards run, in source order, before
any mutation; each failing guard returns its error with the state
untouched and no event.  When all guards pass, pots, board and burned are
initialized to empty, the current event symbol is cleared, and the
`Started` event is emitted.  (The handler chain behind `EmitEvent` is in a
missing source file; the embedding returns the emitted event.) -/
def start (gs : GameState) : GameState × Option GameErr × Option GameEvent :=
  if playerCount gs < 2 then (gs, some .insufficientNumberOfPlayers, none)
  else if (dealerOf gs).isNone then (gs, some .noDealer, none)
  else if gs.players.any (fun p => decide (p.bankroll ≤ 0)) then (gs, some .notEnoughBackroll, none)
  else if gs.meta.deck.length = 0 then (gs, some .noDeck, none)
  else
    ({ gs with status := { gs.status with pots := [], board := [], burned := [], currentEvent := "" } },
     none, some .started)

/-- Mutation of a player through its seat-keyed pointer: every player state
whose seat index is `i` is updated by `f` (for canonically seated games
this is exactly one player). -/
def updatePlayer (gs : GameState) (i : Int) (f : PlayerState → PlayerState) : GameState :=
  { gs with players := gs.players.map (fun p => if p.idx = i then f p else p) }

/-- `game.GetAvailableActions` (the `p == nil` guard of the source cannot
arise for a value-passed player).  Builds the action list by the exact
append order of the source. -/
def getAvailableActions (gs : GameState) (p : PlayerState) : List String :=
  if p.fold then ["pass"]
  else if p.stackSize = 0 then ["pass"]
  else
    if p.wager < gs.status.currentWager then
      ["allin", "fold"] ++
        (if gs.status.currentWager < p.initialStackSize then
          ["call"] ++
            (if gs.status.currentWager + gs.status.previousRaiseSize < p.initialStackSize then
              ["raise"]
            else [])
        else [])
    else
      ["allin", "check"] ++
        (if gs.status.miniBet ≤ p.initialStackSize then
          (if gs.status.currentWager = 0 then ["bet"] else ["raise"])
        else [])

/-- `game.GetAllowedActions`: the available actions when `p` is the
current player, the empty list otherwise. -/
def getAllowedActions (gs : GameState) (p : PlayerState) : List String :=
  if gs.status.currentPlayer = p.idx then getAvailableActions gs p else []

/-- The first half of `game.SetCurrentPlayer`: when a current player is
set, its allowed-action list is cleared through the seat map (a stale
out-of-map seat would be a `nil` dereference, modelled as `none`). -/
def clearCurrentAllowed (gs : GameState) : Option GameState :=
  if gs.status.currentPlayer ≠ -1 then
    match gamePlayer gs gs.status.currentPlayer with
    | none => none
    | some cp => some (updatePlayer gs cp.idx (fun q => { q with allowedActions := [] }))
  else some gs

/-- `game.SetCurrentPlayer` (through `setCurrentPlayer`): clear the old
current player's allowed actions, set the current seat (−1 for `nil`),
and recompute and store the new current player's allowed actions. -/
def setCurrentPlayer (gs : GameState) (pOpt : Option PlayerState) : Option GameState := do
  let gs1 ← clearCurrentAllowed gs
  match pOpt with
  | none => some { gs1 with status := { gs1.status with currentPlayer := -1 } }
  | some p =>
    let gs2 := { gs1 with status := { gs1.status with currentPlayer := p.idx } }
    some (updatePlayer gs2 p.idx (fun q => { q with allowedActions := getAllowedActions gs2 q }))

/-- `game.StartAtDealer`: `ErrNotFoundDealer` when there is no dealer,
otherwise make the dealer the current player. -/
def startAtDealer (gs : GameState) : Option GameState :=
  match dealerOf gs with
  | none => none
  | some d => setCurrentPlayer gs (some d)

/-- `game.RequestPlayerAction`: the round closes (emitting `RoundClosed`)
when only one player is alive, no player is movable, or the next player
has already acted; otherwise the next player becomes current and no event
is emitted.  `none` is the `nil` dereference of `p.State()` when there is
no next player. -/
def requestPlayerAction (gs : GameState) : Option (GameState × Option GameEvent) :=
  if getAlivePlayerCount gs = 1 then some (gs, some .roundClosed)
  else if getMovablePlayerCount gs = 0 then some (gs, some .roundClosed)
  else
    match nextPlayer gs with
    | none => none
    | some p =>
      if p.acted then some (gs, some .roundClosed)
      else (setCurrentPlayer gs (some p)).map (fun gs1 => (gs1, none))

/-- `game.ResetRoundStatus`: zero the per-round status fields and point
both the current raiser and the current player at the dealer seat (a
missing dealer would be a `nil` dereference, modelled as `none`). -/
def resetRoundStatus (gs : GameState) : Option GameState :=
  (dealerOf gs).map (fun d =>
    { gs with status := { gs.status with
        previousRaiseSize := 0
        maxWager := 0
        currentRoundPot := 0
        currentWager := 0
        currentRaiser := d.idx
        currentPlayer := d.idx } })

/-- The per-player body of `game.ResetAllPlayerStatus`: clear the allowed
actions, roll the wager into the pot contribution, snapshot the initial
stack, and tag `didAction`. -/
def resetPlayerStatus (p : PlayerState) : PlayerState :=
  let p := { p with allowedActions := [], pot := p.pot + p.wager, wager := 0,
                    initialStackSize := p.stackSize }
  if p.fold then { p with didAction := "fold" }
  else if p.initialStackSize = 0 then { p with didAction := "allin" }
  else { p with didAction := "" }

/-- `game.ResetAllPlayerStatus`: applies `resetPlayerStatus` to every
player.  (The source iterates `GetPlayers()`, the dealer-first walk of the
seat map, which for canonically seated games visits each player exactly
once; the per-player update is order-independent.) -/
def resetAllPlayerStatus (gs : GameState) : GameState :=
  { gs with players := gs.players.map resetPlayerStatus }

/-- `game.UpdateLastAction`. -/
def updateLastAction (gs : GameState) (source : Int) (t : String) (v : Int) : GameState :=
  { gs with status := { gs.status with lastAction := some ⟨source, t, v⟩ } }

/-- `game.nextRound`: reset round and player status, emit `GameCompleted`
when a single alive player remains, otherwise advance
preflop→flop→turn→river (the river emits `GameCompleted`); any other
round is `ErrUnknownRound` (`none`).  The result carries the emitted
event; the dealing that some events trigger lives behind the missing
event-dispatcher file. -/
def nextRound (gs : GameState) : Option (GameState × GameEvent) := do
  let gs1 ← resetRoundStatus gs
  let gs2 := resetAllPlayerStatus gs1
  if getAlivePlayerCount gs2 = 1 then some (gs2, .gameCompleted)
  else
    if gs2.status.round = "preflop" then
      some ({ gs2 with status := { gs2.status with round := "flop" } }, .flopRoundEntered)
    else if gs2.status.round = "flop" then
      some ({ gs2 with status := { gs2.status with round := "turn" } }, .turnRoundEntered)
    else if gs2.status.round = "turn" then
      some ({ gs2 with status := { gs2.status with round := "river" } }, .riverRoundEntered)
    else if gs2.status.round = "river" then
      some (gs2, .gameCompleted)
    else none

/-- `game.Next`: record the system "next" action; in the four betting
rounds advance through `nextRound`, otherwise do nothing and emit no
event. -/
def nextOp (gs : GameState) : Option (GameState × Option GameEvent) :=
  let gs1 := updateLastAction gs (-1) "next" 0
  if gs1.status.round = "preflop" ∨ gs1.status.round = "flop" ∨
     gs1.status.round = "turn" ∨ gs1.status.round = "river" then
    (nextRound gs1).map (fun r => (r.1, some r.2))
  else some (gs1, none)

/-- `game.ResetAllPlayerAllowedActions`.  Modelled from the spec: the
`player.Reset` body is in the missing player file; per §5 it clears the
player's allowed-actions list. -/
def resetAllPlayerAllowedActions (gs : GameState) : GameState :=
  { gs with players := gs.players.map (fun p => { p with allowedActions := [] }) }

/-- The preflop seat-search loop of `game.StartRound` (`i` is the
remaining fuel of the bounded `for` loop): take the next player; if it is
the big blind, set the player after the current one and stop; otherwise
make it current and continue. -/
def preflopFind : Nat → GameState → Option GameState
  | 0, gs => some gs
  | k + 1, gs =>
    match nextPlayer gs with
    | none => none
    | some p =>
      if checkPosition p "bb" then setCurrentPlayer gs (nextPlayer gs)
      else do
        let gs1 ← setCurrentPlayer gs (some p)
        preflopFind k gs1

/-- `game.StartRound`: clear every allowed-action list; preflop runs the
big-blind search from the dealer (closing the round at once when nobody
is movable), any other round starts at the dealer; then `RoundStarted`
is emitted. -/
def startRound (gs : GameState) : Option (GameState × GameEvent) :=
  let gs0 := resetAllPlayerAllowedActions gs
  if gs0.status.round = "preflop" then
    if getMovablePlayerCount gs0 = 0 then some (gs0, .roundClosed)
    else do
      let gs1 ← setCurrentPlayer gs0 (dealerOf gs0)
      let gs2 ← preflopFind (playerCount gs1) gs1
      some (gs2, .roundStarted)
  else do
    let gs1 ← startAtDealer gs0
    some (gs1, .roundStarted)

/-- `game.BecomeRaiser`: record a voluntary put-in, make the seat the
current raiser, clear every acted flag and re-set the raiser's own. -/
def becomeRaiser (gs : GameState) (pIdx : Int) : GameState :=
  let gs1 := updatePlayer gs pIdx (fun q => if 0 < q.wager then { q with vpip := true } else q)
  let gs2 := { gs1 with status := { gs1.status with currentRaiser := pIdx } }
  let gs3 := { gs2 with players := gs2.players.map (fun q => { q with acted := false }) }
  updatePlayer gs3 pIdx (fun q => { q with acted := true })

/-- Modelled from the spec: the chip transfer common to the paying actions
of the missing player file — move `amount` chips from the stack into the
in-round wager and mark the player as having acted (§4.3). -/
def payChips (amount : Int) (p : PlayerState) : PlayerState :=
  { p with stackSize := p.stackSize - amount, wager := p.wager + amount, acted := true }

/-- Modelled from the spec: `PayAnte` (§4.4) — every seated player pays
the ante up to their stack, and the ante is folded into the player's
committed `pot` field (not the in-round wager). -/
def opPayAnte (gs : GameState) : Option GameState :=
  some { gs with players := gs.players.map (fun p =>
    let a := min gs.meta.ante p.stackSize
    { p with stackSize := p.stackSize - a, pot := p.pot + a }) }

/-- Modelled from the spec: `PayBlinds` (§4.4) — the dealer blind, small
blind and big blind are paid by the seats holding those positions, each
capped at the stack, becoming the seat's preflop wager; the round target
becomes the big blind (or the dealer blind when it is larger). -/
def opPayBlinds (gs : GameState) : Option GameState :=
  let paid := gs.players.map (fun p =>
    let owed := (if checkPosition p "dealer" then gs.meta.blind.dealer else 0) +
      (if checkPosition p "sb" then gs.meta.blind.sb else 0) +
      (if checkPosition p "bb" then gs.meta.blind.bb else 0)
    let a := min owed p.stackSize
    { p with stackSize := p.stackSize - a, wager := p.wager + a })
  some { gs with
    players := paid
    status := { gs.status with
      currentWager := max gs.meta.blind.bb gs.meta.blind.dealer
      maxWager := max gs.meta.blind.bb gs.meta.blind.dealer } }

/-- Resolve the current player through the seat map, as the action methods
of the missing player file do before mutating (`nil` when the current
seat is invalid). -/
def currentPlayerOf (gs : GameState) : Option PlayerState :=
  gamePlayer gs gs.status.currentPlayer

/-- Modelled from the spec: `Call` (§4.3) — pay `currentWager − wager`,
capped at the stack; legal only when "call" is among the current player's
available actions. -/
def opCall (gs : GameState) : Option GameState := do
  let p ← currentPlayerOf gs
  if "call" ∈ getAvailableActions gs p then
    let amount := min (gs.status.currentWager - p.wager) p.stackSize
    some ({ updatePlayer gs p.idx (fun q => { payChips amount q with didAction := "call" }) with
            status := { gs.status with currentRoundPot := gs.status.currentRoundPot + amount } })
  else none

/-- Modelled from the spec: `Bet chips` (§4.3) — legal only when
`currentWager = 0`, `chips ≥ miniBet` and the chips fit in the stack; the
bet becomes the round target and its size the previous raise size, and the
bettor becomes the raiser (`BecomeRaiser` is embedded from the source). -/
def opBet (gs : GameState) (chips : Int) : Option GameState := do
  let p ← currentPlayerOf gs
  if "bet" ∈ getAvailableActions gs p ∧ gs.status.miniBet ≤ chips ∧ chips ≤ p.stackSize then
    let gs1 := updatePlayer gs p.idx (fun q => { payChips chips q with didAction := "bet" })
    let gs2 := { gs1 with status := { gs1.status with
      currentWager := chips, previousRaiseSize := chips,
      maxWager := max gs1.status.maxWager chips,
      currentRoundPot := gs1.status.currentRoundPot + chips } }
    some (becomeRaiser gs2 p.idx)
  else none

/-- Modelled from the spec: `Raise chipLevel` (§4.3) — the wager is raised
to `chipLevel`, which must be at least `currentWager + previousRaiseSize`
and affordable; the raiser pays the difference, the round target and the
previous raise size are updated, and the raiser's flags are set through
`BecomeRaiser` (embedded from the source). -/
def opRaise (gs : GameState) (chipLevel : Int) : Option GameState := do
  let p ← currentPlayerOf gs
  if "raise" ∈ getAvailableActions gs p ∧
     gs.status.currentWager + gs.status.previousRaiseSize ≤ chipLevel ∧
     chipLevel - p.wager ≤ p.stackSize then
    let delta := chipLevel - p.wager
    let gs1 := updatePlayer gs p.idx (fun q => { payChips delta q with didAction := "raise" })
    let gs2 := { gs1 with status := { gs1.status with
      previousRaiseSize := chipLevel - gs1.status.currentWager,
      currentWager := chipLevel,
      maxWager := max gs1.status.maxWager chipLevel,
      currentRoundPot := gs1.status.currentRoundPot + delta } }
    some (becomeRaiser gs2 p.idx)
  else none

/-- Modelled from the spec: `Allin` (§4.3) — the whole remaining stack is
committed; if the resulting wager beats the round target it becomes the
new target, constituting a raise only when it covers a full raise (a
short all-in does not reopen betting: acted flags are preserved). -/
def opAllin (gs : GameState) : Option GameState := do
  let p ← currentPlayerOf gs
  if "allin" ∈ getAvailableActions gs p then
    let newWager := p.wager + p.stackSize
    let gs1 := updatePlayer gs p.idx (fun q =>
      { payChips q.stackSize q with didAction := "allin" })
    let gs2 := { gs1 with status := { gs1.status with
      maxWager := max gs1.status.maxWager newWager,
      currentRoundPot := gs1.status.currentRoundPot + p.stackSize } }
    if gs.status.currentWager < newWager then
      if gs.status.currentWager + gs.status.previousRaiseSize ≤ newWager then
        some (becomeRaiser { gs2 with status := { gs2.status with
          previousRaiseSize := newWager - gs2.status.currentWager,
          currentWager := newWager } } p.idx)
      else
        some { gs2 with status := { gs2.status with currentWager := newWager } }
    else some gs2
  else none

/-- Modelled from the spec: `Fold` (§4.3) — sets the fold flag; no chips
move. -/
def opFold (gs : GameState) : Option GameState := do
  let p ← currentPlayerOf gs
  if "fold" ∈ getAvailableActions gs p then
    some (updatePlayer gs p.idx (fun q => { q with fold := true, acted := true, didAction := "fold" }))
  else none

/-- Modelled from the spec: `Check` (§4.3) — a no-chip acknowledgement,
legal when the wager already matches the round target. -/
def opCheck (gs : GameState) : Option GameState := do
  let p ← currentPlayerOf gs
  if "check" ∈ getAvailableActions gs p then
    some (updatePlayer gs p.idx (fun q => { q with acted := true, didAction := "check" }))
  else none

/-- Modelled from the spec: `Pass` (§4.3) — the no-op acknowledgement of
folded or all-in players. -/
def opPass (gs : GameState) : Option GameState := do
  let p ← currentPlayerOf gs
  if "pass" ∈ getAvailableActions gs p then
    some (updatePlayer gs p.idx (fun q => { q with acted := true, didAction := "pass" }))
  else none

/-- Modelled from the spec: `ReadyForAll` (§4.4) — a barrier event that
gates the event flow; it moves no chips and, for the purposes of the
chip ledger, leaves the state unchanged. -/
def opReadyForAll (gs : GameState) : Option GameState :=
  some gs

/-- The operations of the engine API whose acceptance the chip-conservation
claim ranges over. -/
inductive Op where
  | payAnte
  | payBlinds
  | call
  | raiseTo (chipLevel : Int)
  | bet (chips : Int)
  | allin
  | fold
  | check
  | pass
  | next
  | readyForAll
  deriving DecidableEq

/-- Apply one operation; `none` is a rejected (errored) operation. `Next`
is the source-embedded `nextOp`. -/
def applyOp : Op → GameState → Option GameState
  | .payAnte, gs => opPayAnte gs
  | .payBlinds, gs => opPayBlinds gs
  | .call, gs => opCall gs
  | .raiseTo c, gs => opRaise gs c
  | .bet c, gs => opBet gs c
  | .allin, gs => opAllin gs
  | .fold, gs => opFold gs
  | .check, gs => opCheck gs
  | .pass, gs => opPass gs
  | .next, gs => (nextOp gs).map Prod.fst
  | .readyForAll, gs => opReadyForAll gs

/-- Run a sequence of operations; the whole run is accepted when every
operation is. -/
def runOps : List Op → GameState → Option GameState
  | [], gs => some gs
  | op :: ops, gs =>
    match applyOp op gs with
    | none => none
    | some gs1 => runOps ops gs1

/-- The chip ledger of the state: every player's stack, in-round wager and
committed pot contribution, plus the totals of the side-pot layers. -/
def chipSum (gs : GameState) : Int :=
  (gs.players.map (fun p => p.stackSize + p.wager + p.pot)).sum +
    (gs.status.pots.map (fun pt => pt.total)).sum

/-- A state as produced by a successful `Start` on a fresh game: every
player's stack equals their bankroll with nothing yet wagered or
committed, and the pot-layer list is empty. -/
def freshlyStarted (gs : GameState) : Prop :=
  (∀ p ∈ gs.players, p.stackSize = p.bankroll ∧ p.wager = 0 ∧ p.pot = 0) ∧
    gs.status.pots = []

instance (gs : GameState) : Decidable (freshlyStarted gs) := by
  unfold freshlyStarted; infer_instance

/-- Canonical seating: the player at list position `i` has seat index `i`
(the layout `AddPlayer` produces). -/
def canonicalSeats (gs : GameState) : Prop :=
  ∀ i : Fin gs.players.length, (gs.players.get i).idx = (i : Nat)

instance (gs : GameState) : Decidable (canonicalSeats gs) := by
  unfold canonicalSeats; infer_instance

/-- The specification's wording of the postflop opener (§4.3): the first
seat clockwise from the dealer whose player is alive with a non-empty
stack.  Stated over canonical seating; used to compare `startRound`
against the specified opener. -/
def specPostflopOpener (gs : GameState) : Option Int :=
  match dealerOf gs with
  | none => none
  | some d =>
    let n := playerCount gs
    (List.range n).findSome? (fun i =>
      match gs.players.get? ((d.idx.toNat + i) % n) with
      | some p => if !p.fold && 0 < p.stackSize then some p.idx else none
      | none => none)

/-- The parallel assignment `result[i], result[j] = result[j], result[i]`
on a list; out-of-range indexes leave the list unchanged (they cannot
arise in the shuffle loops). -/
def listSwap (l : List α) (i j : Nat) : List α :=
  match l[i]?, l[j]? with
  | some a, some b => (l.set i b).set j a
  | _, _ => l

/-- The Fisher–Yates loop of `ShuffleCards` (`deck.go`), descending from
index `i`.  The random draw at index `i` is `o i % (i+1)`: `rand.Int`
yields a value below `i+1` and the time-seeded fallback reduces its draw
`% (i+1)`, so an arbitrary oracle reduced mod `i+1` ranges over exactly
the outcomes of either branch. -/
def fyFrom (o : Nat → Nat) : Nat → List α → List α
  | 0, l => l
  | i + 1, l => fyFrom o i (listSwap l (i + 1) (o (i + 1) % (i + 2)))

/-- `ShuffleCards` of `deck.go`: copy the input and run one Fisher–Yates
pass over the copy (the copy is why the input slice is never written). -/
def ShuffleCards (o : Nat → Nat) (cards : List String) : List String :=
  fyFrom o (cards.length - 1) cards

/-- FNV-1a (64 bit) over the UTF-8 bytes of a string, as
`hash/fnv.New64a` computes it (`% 2^64` is the `uint64` overflow). -/
def fnv64a (s : String) : Nat :=
  s.toUTF8.toList.foldl
    (fun h b => ((h ^^^ b.toNat) * 1099511628211) % (2 ^ 64))
    14695981039346656037

/-- The half-deck shuffle loops of pass 2 of the multi-pass
`ShuffleCards`: descending swaps whose index draw is the FNV-1a hash of
the card currently at the loop index, reduced `% (i+1)`. -/
def fnvHalfFrom : Nat → List String → List String
  | 0, l => l
  | i + 1, l =>
    fnvHalfFrom i (listSwap l (i + 1) (fnv64a (l.getD (i + 1) "") % (i + 2)))

/-- The interleave loop of pass 2: alternate cards of the two halves and
append whatever remains of the second half (the `index < n` guard of the
source never blocks for halves produced by a split). -/
def interleave : List α → List α → List α
  | [], b => b
  | x :: a, [] => x :: a
  | x :: a, y :: b => x :: y :: interleave a b

/-- One offset pass of pass 3: each card moves from position `i` to
position `(i + off) % n`, i.e. the list rotates left by `n − off`. -/
def offsetMove (off : Nat) (l : List α) : List α :=
  l.rotate (l.length - off)

/-- The offset table of pass 3. -/
def shuffleOffsets : List Nat :=
  [7, 11, 13, 17, 19, 23, 29, 31, 37, 41, 43, 47]

/-- Pass 3 of the multi-pass shuffle: apply every offset move, skipping
offsets at least the deck length. -/
def offsetsPass (l : List String) : List String :=
  shuffleOffsets.foldl (fun acc off => if acc.length ≤ off then acc else offsetMove off acc) l

/-- The final Fisher–Yates pass (pass 4) of the multi-pass shuffle: a
failed random draw (`j64 == nil`) skips the swap. -/
def fyFromOpt (o : Nat → Option Nat) : Nat → List α → List α
  | 0, l => l
  | i + 1, l =>
    match o (i + 1) with
    | none => fyFromOpt o i l
    | some v => fyFromOpt o i (listSwap l (i + 1) (v % (i + 2)))

/-- The multi-pass `ShuffleCards` variant: copy, crypto Fisher–Yates,
split-halves FNV shuffle and interleave, offset mixing, final
Fisher–Yates.  `o1` and `o4` are the outcomes of the two random
passes. -/
def ShuffleCardsMulti (o1 : Nat → Nat) (o4 : Nat → Option Nat) (cards : List String) : List String :=
  let result := fyFrom o1 (cards.length - 1) cards
  let n := result.length
  let firstHalf := result.take (n / 2)
  let secondHalf := result.drop (n / 2)
  let f1 := fnvHalfFrom (firstHalf.length - 1) firstHalf
  let f2 := fnvHalfFrom (secondHalf.length - 1) secondHalf
  let result2 := interleave f1 f2
  let result3 := offsetsPass result2
  fyFromOpt o4 (result3.length - 1) result3

/-! Concrete states: small games used to exercise the embedded engine on
explicit inputs. -/

/-- A small metadata record: no ante, blinds 1/2, a five-card deck. -/
def wMeta : Meta :=
  { ante := 0, blind := { dealer := 0, sb := 1, bb := 2 }, deck := ["SA", "SK", "SQ", "SJ", "ST"] }

/-- Heads-up fresh game: dealer/small-blind at seat 0, big blind at seat 1,
both with bankroll 100, preflop, seat 0 to act. -/
def wC1 : GameState :=
  { meta := wMeta
    status := { round := "preflop", currentPlayer := 0 }
    players :=
      [{ idx := 0, positions := ["dealer", "sb"], bankroll := 100, initialStackSize := 100,
         stackSize := 100 },
       { idx := 1, positions := ["bb"], bankroll := 100, initialStackSize := 100,
         stackSize := 100 }] }

/-- Blinds then a call by seat 0. -/
def wC1ops : List Op := [Op.payBlinds, Op.call]

/-- The state after running `wC1ops` on `wC1`. -/
def wC1out : GameState := (runOps wC1ops wC1).getD wC1

/-- Three players, seat 0 (dealer) to act, seat 1 folded with a live stack,
seat 2 movable: the state on which `NextPlayer` fails to skip. -/
def c2gs : GameState :=
  { meta := wMeta
    status := { round := "flop", currentPlayer := 0 }
    players :=
      [{ idx := 0, positions := ["dealer"], bankroll := 100, initialStackSize := 100,
         stackSize := 100 },
       { idx := 1, positions := ["sb"], bankroll := 100, initialStackSize := 100,
         stackSize := 100, fold := true },
       { idx := 2, positions := ["bb"], bankroll := 100, initialStackSize := 100,
         stackSize := 100 }] }

/-- Three players entering the flop with the dealer folded and the other
two seats movable. -/
def c4gs : GameState :=
  { meta := wMeta
    status := { round := "flop", currentPlayer := -1 }
    players :=
      [{ idx := 0, positions := ["dealer"], bankroll := 100, initialStackSize := 100,
         stackSize := 100, fold := true },
       { idx := 1, positions := ["sb"], bankroll := 100, initialStackSize := 100,
         stackSize := 100 },
       { idx := 2, positions := ["bb"], bankroll := 100, initialStackSize := 100,
         stackSize := 100 }] }

/-- A movable dealer for the amended postflop-opener theorem. -/
def wp40 : PlayerState :=
  { idx := 0, positions := ["dealer"], bankroll := 100, initialStackSize := 100,
    stackSize := 100 }

/-- Three players entering the turn with a movable dealer. -/
def wgs4 : GameState :=
  { meta := wMeta
    status := { round := "turn", currentPlayer := -1 }
    players :=
      [wp40,
       { idx := 1, positions := ["sb"], bankroll := 100, initialStackSize := 100,
         stackSize := 100 },
       { idx := 2, positions := ["bb"], bankroll := 100, initialStackSize := 100,
         stackSize := 100 }] }

/-- The short-stacked player of the raise-legality scenario (§8.4): stack
15 facing a wager of 10 with a previous raise of 10. -/
def wp3 : PlayerState :=
  { idx := 0, positions := ["sb"], bankroll := 15, initialStackSize := 15, stackSize := 15 }

/-- The state around `wp3`: currentWager 10, previousRaiseSize 10, seat 0
to act. -/
def wgs3 : GameState :=
  { meta := wMeta
    status := { round := "preflop", currentPlayer := 0, currentWager := 10,
                previousRaiseSize := 10, miniBet := 2 }
    players :=
      [wp3,
       { idx := 1, positions := ["bb"], bankroll := 100, initialStackSize := 100,
         stackSize := 100, wager := 10 }] }

/-- The seat that follows the current player in `wgs5`. -/
def wp51 : PlayerState :=
  { idx := 1, positions := ["bb"], bankroll := 100, initialStackSize := 100,
    stackSize := 100, wager := 2 }

/-- Heads-up mid-round state: both alive and movable, seat 0 current, seat
1 not yet acted. -/
def wgs5 : GameState :=
  { meta := wMeta
    status := { round := "preflop", currentPlayer := 0, currentWager := 2 }
    players :=
      [{ idx := 0, positions := ["dealer", "sb"], bankroll := 100, initialStackSize := 100,
         stackSize := 99, wager := 1 },
       wp51] }

/-- The dealer of `wgs6`. -/
def wd6 : PlayerState :=
  { idx := 0, positions := ["dealer"], bankroll := 100, initialStackSize := 98,
    stackSize := 98, wager := 2 }

/-- A three-player river state about to advance (both wagers pending). -/
def wgs6 : GameState :=
  { meta := wMeta
    status := { round := "river", currentPlayer := 1, currentWager := 2, maxWager := 2,
                currentRoundPot := 4, previousRaiseSize := 2 }
    players :=
      [wd6,
       { idx := 1, positions := ["sb"], bankroll := 100, initialStackSize := 97,
         stackSize := 95, wager := 2, pot := 3 },
       { idx := 2, positions := ["bb"], bankroll := 100, initialStackSize := 100,
         stackSize := 100, fold := true }] }

/-- Two players but nobody holding the dealer position. -/
def c7bad : GameState :=
  { meta := wMeta
    status := {}
    players :=
      [{ idx := 0, positions := ["sb"], bankroll := 100, initialStackSize := 100,
         stackSize := 100 },
       { idx := 1, positions := ["bb"], bankroll := 100, initialStackSize := 100,
         stackSize := 100 }] }

/-- A loaded state whose recorded event symbol is `ReadyRequested`. -/
def wC8 : GameState :=
  { meta := wMeta
    status := { currentEvent := "ReadyRequested" }
    players := [] }

/-! Theorems. -/

/-- Claim C8: `Resume` re-emits exactly the event whose symbol is recorded
in `status.currentEvent` when that field is non-empty, and emits no event
(returning success) when it is empty. -/
theorem resume_reemits_last_event (gs : GameState) :
    (∀ e : GameEvent, gs.status.currentEvent = e.symbol → resume gs = some e) ∧
      (gs.status.currentEvent = "" → resume gs = none) := by
  constructor
  · intro e he
    unfold resume
    rw [he]
    cases e <;> decide
  · intro h
    simp [resume, h]

/-- Witness for C8: a state recording `ReadyRequested` resumes by emitting
`ReadyRequested`. -/
theorem resume_reemits_last_event_witness : resume wC8 = some GameEvent.readyRequested :=
  (resume_reemits_last_event wC8).1 GameEvent.readyRequested (by decide)

/-- Claim C2 (evidence of the code bug): on `c2gs` — seat 0 current, seat
1 folded with a live stack, seat 2 movable — `NextPlayer` returns the seat
1 player, which is folded, instead of skipping to seat 2 as the
specification requires. -/
theorem nextPlayer_returns_folded_seat :
    (nextPlayer c2gs).map (fun p => (p.idx, p.fold)) = some (1, true) := by
  decide

/-- Claim C7: `Start` fails exactly on a configuration error — too few
players, no dealer, a non-positive bankroll, or an empty deck, classified
in source order — returning before any event with the state unchanged;
on success it empties pots, board and burned and emits `Started`. -/
theorem start_configuration_errors (gs : GameState) :
    ((start gs).2.1 ≠ none ↔
        (playerCount gs < 2 ∨ dealerOf gs = none ∨ (∃ p ∈ gs.players, p.bankroll ≤ 0) ∨
          gs.meta.deck = [])) ∧
      ((start gs).2.1 ≠ none → (start gs).1 = gs ∧ (start gs).2.2 = none) ∧
      (playerCount gs < 2 → (start gs).2.1 = some .insufficientNumberOfPlayers) ∧
      (¬ playerCount gs < 2 → dealerOf gs = none → (start gs).2.1 = some .noDealer) ∧
      (¬ playerCount gs < 2 → dealerOf gs ≠ none → (∃ p ∈ gs.players, p.bankroll ≤ 0) →
        (start gs).2.1 = some .notEnoughBackroll) ∧
      (¬ playerCount gs < 2 → dealerOf gs ≠ none → ¬ (∃ p ∈ gs.players, p.bankroll ≤ 0) →
        gs.meta.deck = [] → (start gs).2.1 = some .noDeck) ∧
      ((start gs).2.1 = none →
        (start gs).1.status.pots = [] ∧ (start gs).1.status.board = [] ∧
          (start gs).1.status.burned = [] ∧ (start gs).1.players = gs.players ∧
          (start gs).2.2 = some .started) := by
  unfold start
  by_cases h1 : playerCount gs < 2
  · simp [h1]
  · by_cases h2 : (dealerOf gs).isNone
    · simp [h1, h2, Option.isNone_iff_eq_none.mp h2]
    · have h2' : dealerOf gs ≠ none := by
        simpa [Option.isNone_iff_eq_none] using h2
      by_cases h3 : ∃ p ∈ gs.players, p.bankroll ≤ 0
      · have h3' : gs.players.any (fun p => decide (p.bankroll ≤ 0)) = true := by
          simpa [List.any_eq_true] using h3
        simp [h1, h2, h2', h3, h3']
      · have h3' : ¬ gs.players.any (fun p => decide (p.bankroll ≤ 0)) = true := by
          simpa [List.any_eq_true] using h3
        by_cases h4 : gs.meta.deck.length = 0
        · simp [h1, h2, h2', h3, h3', h4, List.length_eq_zero.mp h4]
        · have h4' : gs.meta.deck ≠ [] := by
            simpa [List.length_eq_zero] using h4
          simp [h1, h2, h2', h3, h3', h4, h4']

/-- Witness for C7: a two-player game with no dealer position fails with
`NoDealer`. -/
theorem start_configuration_errors_witness :
    (start c7bad).2.1 = some GameErr.noDealer :=
  (start_configuration_errors c7bad).2.2.2.1 (by decide) (by decide)

theorem buildPlayersMap_append (l : List PlayerState) (a : PlayerState) (k : Int) :
    buildPlayersMap (l ++ [a]) k = if k = a.idx then some a else buildPlayersMap l k := by
  simp [buildPlayersMap, List.foldl_append]

theorem buildPlayersMap_canonical :
    ∀ l : List PlayerState, (∀ i : Fin l.length, (l.get i).idx = (i : Nat)) →
      ∀ k : Nat, k < l.length → buildPlayersMap l (k : Int) = l.get? k := by
  intro l
  induction l using List.reverseRecOn with
  | nil =>
    intro _ k hk
    simp at hk
  | append_singleton l a ih =>
    intro hc k hk
    have ha : a.idx = (l.length : Int) := by
      have h := hc ⟨l.length, by simp⟩
      simpa using h
    have hk' : k < l.length + 1 := by simpa using hk
    rcases Nat.lt_succ_iff_lt_or_eq.mp hk' with hlt | heq
    · have hne : (k : Int) ≠ a.idx := by
        rw [ha]
        exact_mod_cast Nat.ne_of_lt hlt
      rw [buildPlayersMap_append, if_neg hne]
      have hc' : ∀ i : Fin l.length, (l.get i).idx = (i : Nat) := by
        intro i
        have h := hc ⟨i, by simp [Nat.lt_succ_of_lt i.isLt]⟩
        simpa [List.getElem_append_left i.isLt] using h
      rw [ih hc' k hlt]
      simp [List.get?_eq_getElem?, List.getElem?_append_left hlt]
    · subst heq
      rw [buildPlayersMap_append, if_pos ha.symm]
      simp

/-- Claim C10: `Player(idx)` is total — `nil` for every out-of-range
index, and for canonically seated games the in-range lookup returns the
player registered at that seat (the list entry at position `idx`). -/
theorem player_lookup_total (gs : GameState) (idx : Int) :
    ((idx < 0 ∨ (playerCount gs : Int) ≤ idx) → gamePlayer gs idx = none) ∧
      (canonicalSeats gs → 0 ≤ idx → idx < (playerCount gs : Int) →
        gamePlayer gs idx = gs.players.get? idx.toNat) := by
  constructor
  · intro h
    simp [gamePlayer, h]
  · intro hc h0 hlt
    have hcond : ¬ (idx < 0 ∨ (playerCount gs : Int) ≤ idx) := by omega
    simp only [gamePlayer, if_neg hcond]
    have hk : idx.toNat < gs.players.length := by
      unfold playerCount at hlt
      omega
    have h := buildPlayersMap_canonical gs.players hc idx.toNat hk
    rwa [Int.toNat_of_nonneg h0] at h

/-- Witness for C10: in a three-seat game, seat 5 resolves to `nil` and
seat 1 resolves to the player at list position 1. -/
theorem player_lookup_total_witness :
    gamePlayer wgs4 5 = none ∧ gamePlayer wgs4 1 = wgs4.players.get? ((1 : Int).toNat) :=
  ⟨(player_lookup_total wgs4 5).1 (by decide),
   (player_lookup_total wgs4 1).2 (by decide) (by decide) (by decide)⟩

theorem cons_set_perm (t : List α) :
    ∀ (k : Nat) (hk : k < t.length) (a : α), (t[k] :: t.set k a).Perm (a :: t) := by
  induction t with
  | nil =>
    intro k hk a
    simp at hk
  | cons x t ih =>
    intro k hk a
    cases k with
    | zero =>
      simpa using List.Perm.swap a x t
    | succ k =>
      have hk' : k < t.length := by simpa using hk
      have h1 : (x :: t)[k + 1] = t[k] := by simp
      have h2 : (x :: t).set (k + 1) a = x :: t.set k a := by simp
      rw [h1, h2]
      refine (List.Perm.swap x _ _).trans ?_
      refine List.Perm.trans ?_ (List.Perm.swap a x t)
      exact (ih k hk' a).cons x

theorem listSwap_perm (l : List α) (i j : Nat) : (listSwap l i j).Perm l := by
  induction l generalizing i j with
  | nil => simp [listSwap]
  | cons x t ih =>
    cases i with
    | zero =>
      cases j with
      | zero => simp [listSwap]
      | succ j =>
        cases hj : t[j]? with
        | none =>
          simp only [listSwap, List.getElem?_cons_zero, List.getElem?_cons_succ, hj]
          exact List.Perm.refl _
        | some b =>
          obtain ⟨hjlt, hget⟩ := List.getElem?_eq_some.mp hj
          simp only [listSwap, List.getElem?_cons_zero, List.getElem?_cons_succ, hj,
            List.set_cons_zero, List.set_cons_succ]
          exact hget ▸ cons_set_perm t j hjlt x
    | succ i =>
      cases j with
      | zero =>
        cases hi : t[i]? with
        | none =>
          simp only [listSwap, List.getElem?_cons_zero, List.getElem?_cons_succ, hi]
          exact List.Perm.refl _
        | some a =>
          obtain ⟨hilt, hget⟩ := List.getElem?_eq_some.mp hi
          simp only [listSwap, List.getElem?_cons_zero, List.getElem?_cons_succ, hi,
            List.set_cons_zero, List.set_cons_succ]
          exact hget ▸ cons_set_perm t i hilt x
      | succ j =>
        cases hi : t[i]? with
        | none =>
          simp only [listSwap, List.getElem?_cons_succ, hi]
          exact List.Perm.refl _
        | some a =>
          cases hj : t[j]? with
          | none =>
            simp only [listSwap, List.getElem?_cons_succ, hi, hj]
            exact List.Perm.refl _
          | some b =>
            have h := ih i j
            simp only [listSwap, hi, hj] at h
            simp only [listSwap, List.getElem?_cons_succ, hi, hj, List.set_cons_succ]
            exact h.cons x

theorem fyFrom_perm (o : Nat → Nat) : ∀ (i : Nat) (l : List α), (fyFrom o i l).Perm l := by
  intro i
  induction i with
  | zero =>
    intro l
    simp [fyFrom]
  | succ i ih =>
    intro l
    exact (ih _).trans (listSwap_perm _ _ _)

theorem fnvHalfFrom_perm : ∀ (i : Nat) (l : List String), (fnvHalfFrom i l).Perm l := by
  intro i
  induction i with
  | zero =>
    intro l
    simp [fnvHalfFrom]
  | succ i ih =>
    intro l
    exact (ih _).trans (listSwap_perm _ _ _)

theorem fyFromOpt_perm (o : Nat → Option Nat) :
    ∀ (i : Nat) (l : List α), (fyFromOpt o i l).Perm l := by
  intro i
  induction i with
  | zero =>
    intro l
    simp [fyFromOpt]
  | succ i ih =>
    intro l
    cases h : o (i + 1) with
    | none =>
      simp only [fyFromOpt, h]
      exact ih l
    | some v =>
      simp only [fyFromOpt, h]
      exact (ih _).trans (listSwap_perm _ _ _)

theorem interleave_perm : ∀ (a b : List α), (interleave a b).Perm (a ++ b) := by
  intro a
  induction a with
  | nil =>
    intro b
    simp [interleave]
  | cons x a ih =>
    intro b
    cases b with
    | nil => simp [interleave]
    | cons y b =>
      simp only [interleave, List.cons_append]
      refine List.Perm.cons x ?_
      exact ((ih b).cons y).trans List.perm_middle.symm

theorem foldl_offsets_perm :
    ∀ (offs : List Nat) (l : List String),
      (offs.foldl (fun acc off => if acc.length ≤ off then acc else offsetMove off acc) l).Perm
        l := by
  intro offs
  induction offs with
  | nil =>
    intro l
    simp
  | cons o offs ih =>
    intro l
    simp only [List.foldl_cons]
    by_cases h : l.length ≤ o
    · simpa [h] using ih l
    · simpa [h] using (ih _).trans (List.rotate_perm _ _)

/-- Claim C9: both `ShuffleCards` variants return, for every outcome of
the random source, a permutation of the input deck — same length, same
multiset of cards.  (Both copy the input before swapping, so the input
list itself is never written; in this pure embedding that is reflected by
the functions consuming their argument immutably.) -/
theorem shuffleCards_permutation (cards : List String) (o o1 : Nat → Nat)
    (o4 : Nat → Option Nat) :
    (ShuffleCards o cards).Perm cards ∧ (ShuffleCards o cards).length = cards.length ∧
      (ShuffleCardsMulti o1 o4 cards).Perm cards ∧
      (ShuffleCardsMulti o1 o4 cards).length = cards.length := by
  have h1 : (ShuffleCards o cards).Perm cards := fyFrom_perm o _ cards
  have hm : (ShuffleCardsMulti o1 o4 cards).Perm cards := by
    simp only [ShuffleCardsMulti, offsetsPass]
    refine (fyFromOpt_perm o4 _ _).trans ?_
    refine (foldl_offsets_perm _ _).trans ?_
    refine (interleave_perm _ _).trans ?_
    refine (List.Perm.append (fnvHalfFrom_perm _ _) (fnvHalfFrom_perm _ _)).trans ?_
    rw [List.take_append_drop]
    exact fyFrom_perm _ _ _
  exact ⟨h1, h1.length_eq, hm, hm.length_eq⟩

/-- Witness for C9: an explicit deck and oracle instantiation. -/
theorem shuffleCards_permutation_witness :
    (ShuffleCardsMulti (fun i => i) (fun i => some (i + 3)) wMeta.deck).Perm wMeta.deck :=
  (shuffleCards_permutation wMeta.deck (fun i => 2 * i + 1) (fun i => i)
    (fun i => some (i + 3))).2.2.1

/-- Claim C3: `GetAllowedActions` is empty for a non-current player; for
the current player it is exactly \x7bpass\x7d when folded or all-in, and
otherwise contains exactly `allin` plus, facing a higher wager, `fold`,
`call` iff the initial stack exceeds the current wager and `raise` iff it
exceeds the current wager plus the previous raise size, or, with the
wager matched, `check` plus (`bet` when the current wager is zero, else
`raise`) iff the initial stack covers the minimum bet.  The previous
raise size is non-negative in every reachable state (§3). -/
theorem getAllowedActions_characterization (gs : GameState) (p : PlayerState)
    (hprs : 0 ≤ gs.status.previousRaiseSize) :
    (gs.status.currentPlayer ≠ p.idx → getAllowedActions gs p = []) ∧
      (gs.status.currentPlayer = p.idx →
        (p.fold = true → getAllowedActions gs p = ["pass"]) ∧
          (p.fold = false → p.stackSize = 0 → getAllowedActions gs p = ["pass"]) ∧
          (p.fold = false → p.stackSize ≠ 0 → ∀ a : String,
            a ∈ getAllowedActions gs p ↔
              (a = "allin" ∨
                (p.wager < gs.status.currentWager ∧
                  (a = "fold" ∨
                    (a = "call" ∧ gs.status.currentWager < p.initialStackSize) ∨
                    (a = "raise" ∧
                      gs.status.currentWager + gs.status.previousRaiseSize <
                        p.initialStackSize))) ∨
                (gs.status.currentWager ≤ p.wager ∧
                  (a = "check" ∨
                    (gs.status.miniBet ≤ p.initialStackSize ∧
                      ((a = "bet" ∧ gs.status.currentWager = 0) ∨
                        (a = "raise" ∧ gs.status.currentWager ≠ 0)))))))) := by
  constructor
  · intro h
    simp [getAllowedActions, h]
  · intro hcp
    unfold getAllowedActions
    rw [if_pos hcp]
    refine ⟨?_, ?_, ?_⟩
    · intro hf
      simp [getAvailableActions, hf]
    · intro hf hs
      simp [getAvailableActions, hf, hs]
    · intro hf hs a
      by_cases hw : p.wager < gs.status.currentWager
      · have hnw : ¬ gs.status.currentWager ≤ p.wager := by omega
        by_cases hcall : gs.status.currentWager < p.initialStackSize
        · by_cases hraise :
            gs.status.currentWager + gs.status.previousRaiseSize < p.initialStackSize
          · simp only [getAvailableActions, hf, hs, hw, hcall, hraise, hnw,
              if_true, if_false, Bool.false_eq_true, ite_false, ite_true, List.append_assoc,
              List.mem_append, List.mem_cons, List.mem_singleton, List.not_mem_nil]
            tauto
          · simp only [getAvailableActions, hf, hs, hw, hcall, hraise, hnw,
              if_true, if_false, Bool.false_eq_true, ite_false, ite_true, List.append_nil,
              List.mem_append, List.mem_cons, List.mem_singleton, List.not_mem_nil]
            tauto
        · have hnraise :
            ¬ gs.status.currentWager + gs.status.previousRaiseSize < p.initialStackSize := by
            omega
          simp only [getAvailableActions, hf, hs, hw, hcall, hnraise, hnw,
            if_true, if_false, Bool.false_eq_true, ite_false, ite_true, List.append_nil,
            List.mem_append, List.mem_cons, List.mem_singleton, List.not_mem_nil]
          tauto
      · have hle : gs.status.currentWager ≤ p.wager := by omega
        by_cases hmb : gs.status.miniBet ≤ p.initialStackSize
        · by_cases h0 : gs.status.currentWager = 0
          · have h0' : (gs.status.currentWager = 0) = True := by simp [h0]
            simp only [getAvailableActions, hf, hs, hw, hmb, h0', hle,
              if_true, if_false, Bool.false_eq_true, ite_false, ite_true,
              List.mem_append, List.mem_cons, List.mem_singleton, List.not_mem_nil]
            tauto
          · simp only [getAvailableActions, hf, hs, hw, hmb, h0, hle,
              if_true, if_false, Bool.false_eq_true, ite_false, ite_true,
              List.mem_append, List.mem_cons, List.mem_singleton, List.not_mem_nil]
            tauto
        · simp only [getAvailableActions, hf, hs, hw, hmb, hle,
            if_true, if_false, Bool.false_eq_true, ite_false, ite_true, List.append_nil,
            List.mem_append, List.mem_cons, List.mem_singleton, List.not_mem_nil]
          tauto

/-- Witness for C3: the short-stack scenario of §8.4 — seat 0 facing
wager 10 with previous raise 10 and stack 15 may fold (and the raise
side-condition fails there). -/
theorem getAllowedActions_characterization_witness :
    "fold" ∈ getAllowedActions wgs3 wp3 :=
  (((getAllowedActions_characterization wgs3 wp3 (by decide)).2 (by decide)).2.2
    (by decide) (by decide) "fold").mpr (by decide)

theorem foldl_dealer_map (f : PlayerState → PlayerState)
    (hf : ∀ p, (f p).positions = p.positions) :
    ∀ (l : List PlayerState) (acc : Option PlayerState),
      (l.map f).foldl (fun d p => if checkPosition p "dealer" then some p else d) (acc.map f) =
        (l.foldl (fun d p => if checkPosition p "dealer" then some p else d) acc).map f := by
  intro l
  induction l with
  | nil =>
    intro acc
    simp
  | cons x l ih =>
    intro acc
    simp only [List.map_cons, List.foldl_cons]
    have hcp : checkPosition (f x) "dealer" = checkPosition x "dealer" := by
      simp [checkPosition, hf]
    rw [hcp]
    by_cases h : checkPosition x "dealer"
    · rw [if_pos h, if_pos h]
      simpa using ih (some x)
    · rw [if_neg h, if_neg h]
      exact ih acc

theorem dealerOf_players_map (gs : GameState) (f : PlayerState → PlayerState)
    (hf : ∀ p, (f p).positions = p.positions) :
    dealerOf { gs with players := gs.players.map f } = (dealerOf gs).map f := by
  unfold dealerOf
  simpa using foldl_dealer_map f hf gs.players none

theorem canonicalSeats_map (gs : GameState) (f : PlayerState → PlayerState)
    (hf : ∀ p, (f p).idx = p.idx) (hc : canonicalSeats gs) :
    canonicalSeats { gs with players := gs.players.map f } := by
  intro i
  have hlt : (i : Nat) < gs.players.length := by simpa using i.isLt
  have h := hc ⟨i, hlt⟩
  simp only [List.get_eq_getElem] at h ⊢
  simp only [List.getElem_map, hf]
  exact h

theorem clearCurrentAllowed_exists (gs : GameState) (hc : canonicalSeats gs)
    (hcur : gs.status.currentPlayer = -1 ∨
      (0 ≤ gs.status.currentPlayer ∧ gs.status.currentPlayer < (playerCount gs : Int))) :
    ∃ gs1, clearCurrentAllowed gs = some gs1 ∧ gs1.status = gs.status ∧
      gs1.players.length = gs.players.length := by
  rcases hcur with h | ⟨h0, hlt⟩
  · refine ⟨gs, ?_, rfl, rfl⟩
    simp [clearCurrentAllowed, h]
  · have hne : gs.status.currentPlayer ≠ -1 := by omega
    have hk : gs.status.currentPlayer.toNat < gs.players.length := by
      unfold playerCount at hlt
      omega
    have hbm := buildPlayersMap_canonical gs.players hc _ hk
    rw [Int.toNat_of_nonneg h0] at hbm
    have hget : gs.players.get? gs.status.currentPlayer.toNat =
        some (gs.players.get ⟨gs.status.currentPlayer.toNat, hk⟩) := List.get?_eq_get hk
    have hcond : ¬ (gs.status.currentPlayer < 0 ∨
        (playerCount gs : Int) ≤ gs.status.currentPlayer) := by omega
    refine ⟨updatePlayer gs (gs.players.get ⟨gs.status.currentPlayer.toNat, hk⟩).idx
      (fun q => { q with allowedActions := [] }), ?_, rfl, by simp [updatePlayer]⟩
    unfold clearCurrentAllowed
    rw [if_pos hne]
    unfold gamePlayer
    rw [if_neg hcond, hbm, hget]

theorem setCurrentPlayer_some (gs : GameState) (p : PlayerState) (gs1 : GameState)
    (h : clearCurrentAllowed gs = some gs1) :
    ∃ gs2, setCurrentPlayer gs (some p) = some gs2 ∧ gs2.status.currentPlayer = p.idx := by
  refine ⟨updatePlayer { gs1 with status := { gs1.status with currentPlayer := p.idx } } p.idx
    (fun q => { q with allowedActions :=
      getAllowedActions { gs1 with status := { gs1.status with currentPlayer := p.idx } } q }),
    ?_, rfl⟩
  unfold setCurrentPlayer
  rw [h]
  rfl

/-- Counterexample for C4: on `c4gs` — entering the flop with the dealer
folded and two movable seats — `StartRound` makes the folded dealer (seat
0) the current player, while the first alive seat with chips clockwise
from the dealer is seat 1. -/
theorem startRound_picks_folded_dealer :
    (startRound c4gs).map (fun r => (r.1.status.currentPlayer, r.2)) =
        some (0, GameEvent.roundStarted) ∧
      specPostflopOpener c4gs = some 1 ∧ (0 : Int) ≠ 1 := by
  refine ⟨by decide, by decide, by decide⟩

/-- Claim C4 (amended): entering the flop, turn or river with at least two
movable players, `StartRound` emits `RoundStarted` with the current player
set to the dealer's seat itself — whatever the dealer's fold or stack
status — rather than searching clockwise for a movable seat. -/
theorem startRound_postflop_at_dealer (gs : GameState) (d : PlayerState)
    (hr : gs.status.round = "flop" ∨ gs.status.round = "turn" ∨ gs.status.round = "river")
    (hd : dealerOf gs = some d) (hc : canonicalSeats gs)
    (hcur : gs.status.currentPlayer = -1 ∨
      (0 ≤ gs.status.currentPlayer ∧ gs.status.currentPlayer < (playerCount gs : Int)))
    (hmov : 2 ≤ getMovablePlayerCount gs) :
    ∃ gs2, startRound gs = some (gs2, GameEvent.roundStarted) ∧
      gs2.status.currentPlayer = d.idx := by
  have hf1 : ∀ p : PlayerState,
      (({ p with allowedActions := [] } : PlayerState)).positions = p.positions := fun _ => rfl
  have hf2 : ∀ p : PlayerState,
      (({ p with allowedActions := [] } : PlayerState)).idx = p.idx := fun _ => rfl
  have hd0 : dealerOf (resetAllPlayerAllowedActions gs) =
      some { d with allowedActions := [] } := by
    unfold resetAllPlayerAllowedActions
    rw [dealerOf_players_map gs _ hf1, hd]
    rfl
  have hc0 : canonicalSeats (resetAllPlayerAllowedActions gs) :=
    canonicalSeats_map gs _ hf2 hc
  have hcur0 : (resetAllPlayerAllowedActions gs).status.currentPlayer = -1 ∨
      (0 ≤ (resetAllPlayerAllowedActions gs).status.currentPlayer ∧
        (resetAllPlayerAllowedActions gs).status.currentPlayer <
          (playerCount (resetAllPlayerAllowedActions gs) : Int)) := by
    have hpc : playerCount (resetAllPlayerAllowedActions gs) = playerCount gs := by
      simp [playerCount, resetAllPlayerAllowedActions]
    rw [hpc]
    exact hcur
  obtain ⟨gs1, hclear, _, _⟩ := clearCurrentAllowed_exists _ hc0 hcur0
  obtain ⟨gs2, hset, hcur2⟩ :=
    setCurrentPlayer_some (resetAllPlayerAllowedActions gs) { d with allowedActions := [] }
      gs1 hclear
  have hsa : startAtDealer (resetAllPlayerAllowedActions gs) = some gs2 := by
    unfold startAtDealer
    rw [hd0]
    exact hset
  refine ⟨gs2, ?_, ?_⟩
  · unfold startRound
    have hne : ¬ (resetAllPlayerAllowedActions gs).status.round = "preflop" := by
      show ¬ gs.status.round = "preflop"
      rcases hr with h | h | h <;> simp [h]
    rw [if_neg hne, hsa]
    rfl
  · rw [hcur2]

/-- Witness for the amended C4: a movable dealer at seat 0 entering the
turn becomes the current player. -/
theorem startRound_postflop_at_dealer_witness :
    ∃ gs2, startRound wgs4 = some (gs2, GameEvent.roundStarted) ∧
      gs2.status.currentPlayer = wp40.idx :=
  startRound_postflop_at_dealer wgs4 wp40 (Or.inr (Or.inl rfl)) (by decide) (by decide)
    (Or.inl rfl) (by decide)

/-- Claim C5: after an action the engine emits `RoundClosed` exactly when
one player is alive, or no player is movable, or the computed next player
has already acted; otherwise that next player becomes the current player
and no event is emitted. -/
theorem requestPlayerAction_closure (gs : GameState) (np : PlayerState)
    (hc : canonicalSeats gs)
    (hcur : gs.status.currentPlayer = -1 ∨
      (0 ≤ gs.status.currentPlayer ∧ gs.status.currentPlayer < (playerCount gs : Int)))
    (hnp : nextPlayer gs = some np) :
    (requestPlayerAction gs = some (gs, some GameEvent.roundClosed) ↔
        (getAlivePlayerCount gs = 1 ∨ getMovablePlayerCount gs = 0 ∨ np.acted = true)) ∧
      (¬ (getAlivePlayerCount gs = 1 ∨ getMovablePlayerCount gs = 0 ∨ np.acted = true) →
        ∃ gs1, requestPlayerAction gs = some (gs1, none) ∧
          gs1.status.currentPlayer = np.idx) := by
  by_cases h1 : getAlivePlayerCount gs = 1
  · constructor
    · simp [requestPlayerAction, h1]
    · intro h
      exact absurd (Or.inl h1) h
  · by_cases h2 : getMovablePlayerCount gs = 0
    · constructor
      · simp [requestPlayerAction, h1, h2]
      · intro h
        exact absurd (Or.inr (Or.inl h2)) h
    · by_cases h3 : np.acted = true
      · constructor
        · simp [requestPlayerAction, h1, h2, hnp, h3]
        · intro h
          exact absurd (Or.inr (Or.inr h3)) h
      · obtain ⟨gs1, hclear, _, _⟩ := clearCurrentAllowed_exists gs hc hcur
        obtain ⟨gs2, hset, hcur2⟩ := setCurrentPlayer_some gs np gs1 hclear
        have h3' : np.acted = false := by
          simpa using h3
        have hreq : requestPlayerAction gs = some (gs2, none) := by
          unfold requestPlayerAction
          rw [if_neg h1, if_neg h2, hnp]
          simp only [h3', Bool.false_eq_true, if_false, hset]
          rfl
        constructor
        · rw [hreq]
          constructor
          · intro he
            simp at he
          · intro h
            rcases h with h | h | h <;> contradiction
        · intro _
          exact ⟨gs2, hreq, hcur2⟩

/-- Witness for C5: in `wgs5` nobody has folded, both seats are movable
and the next player has not acted, so the round stays open and seat 1
becomes current. -/
theorem requestPlayerAction_closure_witness :
    ∃ gs1, requestPlayerAction wgs5 = some (gs1, none) ∧
      gs1.status.currentPlayer = wp51.idx :=
  (requestPlayerAction_closure wgs5 wp51 (by decide) (Or.inr (by decide)) (by decide)).2
    (by decide)

theorem resetPlayerStatus_fold (p : PlayerState) : (resetPlayerStatus p).fold = p.fold := by
  simp only [resetPlayerStatus]
  split
  · rfl
  · split <;> rfl

theorem resetPlayerStatus_pot (p : PlayerState) :
    (resetPlayerStatus p).pot = p.pot + p.wager := by
  simp only [resetPlayerStatus]
  split
  · rfl
  · split <;> rfl

theorem resetPlayerStatus_wager (p : PlayerState) : (resetPlayerStatus p).wager = 0 := by
  simp only [resetPlayerStatus]
  split
  · rfl
  · split <;> rfl

theorem resetPlayerStatus_initialStack (p : PlayerState) :
    (resetPlayerStatus p).initialStackSize = p.stackSize := by
  simp only [resetPlayerStatus]
  split
  · rfl
  · split <;> rfl

theorem getAlivePlayerCount_reset (gs : GameState) :
    getAlivePlayerCount (resetAllPlayerStatus gs) = getAlivePlayerCount gs := by
  unfold getAlivePlayerCount resetAllPlayerStatus
  rw [List.countP_map]
  refine List.countP_congr ?_
  intro p _
  simp [Function.comp, resetPlayerStatus_fold]

theorem nextRound_spec (g : GameState) (d : PlayerState) (hd : dealerOf g = some d)
    (hr : g.status.round = "preflop" ∨ g.status.round = "flop" ∨ g.status.round = "turn" ∨
      g.status.round = "river") :
    ∃ g1 ev, nextRound g = some (g1, ev) ∧
      g1.status.previousRaiseSize = 0 ∧ g1.status.currentWager = 0 ∧
      g1.status.maxWager = 0 ∧ g1.status.currentRoundPot = 0 ∧
      g1.status.currentRaiser = d.idx ∧
      (∀ i : Fin g.players.length, ∃ h : (i : Nat) < g1.players.length,
        (g1.players.get ⟨i, h⟩).pot = (g.players.get i).pot + (g.players.get i).wager ∧
          (g1.players.get ⟨i, h⟩).wager = 0 ∧
          (g1.players.get ⟨i, h⟩).initialStackSize = (g.players.get i).stackSize) ∧
      (getAlivePlayerCount g = 1 →
        ev = GameEvent.gameCompleted ∧ g1.status.board = g.status.board ∧
          g1.status.currentDeckPosition = g.status.currentDeckPosition ∧
          g1.status.burned = g.status.burned) ∧
      (g.status.round = "river" →
        ev = GameEvent.gameCompleted ∧ g1.status.board = g.status.board ∧
          g1.status.currentDeckPosition = g.status.currentDeckPosition ∧
          g1.status.burned = g.status.burned) := by
  have hB : resetRoundStatus g = some { g with status := { g.status with
      previousRaiseSize := 0, maxWager := 0, currentRoundPot := 0, currentWager := 0,
      currentRaiser := d.idx, currentPlayer := d.idx } } := by
    unfold resetRoundStatus
    rw [hd]
    rfl
  set g2 := resetAllPlayerStatus { g with status := { g.status with
      previousRaiseSize := 0, maxWager := 0, currentRoundPot := 0, currentWager := 0,
      currentRaiser := d.idx, currentPlayer := d.idx } } with hg2
  have halive2 : getAlivePlayerCount g2 = getAlivePlayerCount g := by
    rw [hg2, getAlivePlayerCount_reset]
    rfl
  have hbody : nextRound g =
      (if getAlivePlayerCount g2 = 1 then some (g2, GameEvent.gameCompleted)
       else if g2.status.round = "preflop" then
         some ({ g2 with status := { g2.status with round := "flop" } },
           GameEvent.flopRoundEntered)
       else if g2.status.round = "flop" then
         some ({ g2 with status := { g2.status with round := "turn" } },
           GameEvent.turnRoundEntered)
       else if g2.status.round = "turn" then
         some ({ g2 with status := { g2.status with round := "river" } },
           GameEvent.riverRoundEntered)
       else if g2.status.round = "river" then some (g2, GameEvent.gameCompleted)
       else none) := by
    unfold nextRound
    rw [hB]
    rfl
  have hplen : g2.players.length = g.players.length := by
    rw [hg2]
    simp [resetAllPlayerStatus]
  have hround2 : g2.status.round = g.status.round := rfl
  have hplayers : ∀ i : Fin g.players.length, ∃ h : (i : Nat) < g2.players.length,
      (g2.players.get ⟨i, h⟩).pot = (g.players.get i).pot + (g.players.get i).wager ∧
        (g2.players.get ⟨i, h⟩).wager = 0 ∧
        (g2.players.get ⟨i, h⟩).initialStackSize = (g.players.get i).stackSize := by
    intro i
    have h : (i : Nat) < g2.players.length := by
      rw [hplen]
      exact i.isLt
    have h' : (i : Nat) < (g.players.map resetPlayerStatus).length := by
      simpa using i.isLt
    have hg : g2.players.get ⟨i, h⟩ = resetPlayerStatus (g.players.get i) := by
      show (g.players.map resetPlayerStatus).get ⟨i, h'⟩ = resetPlayerStatus (g.players.get i)
      simp [List.get_eq_getElem, List.getElem_map]
    exact ⟨h, by rw [hg, resetPlayerStatus_pot], by rw [hg, resetPlayerStatus_wager],
      by rw [hg, resetPlayerStatus_initialStack]⟩
  by_cases halive : getAlivePlayerCount g = 1
  · have hcond : getAlivePlayerCount g2 = 1 := by
      rw [halive2]
      exact halive
    have hnr : nextRound g = some (g2, GameEvent.gameCompleted) := by
      rw [hbody, if_pos hcond]
    exact ⟨g2, GameEvent.gameCompleted, hnr, rfl, rfl, rfl, rfl, rfl, hplayers,
      fun _ => ⟨rfl, rfl, rfl, rfl⟩, fun _ => ⟨rfl, rfl, rfl, rfl⟩⟩
  · have halive2' : ¬ getAlivePlayerCount g2 = 1 := by
      rw [halive2]
      exact halive
    rcases hr with h | h | h | h
    · have hnr : nextRound g =
          some ({ g2 with status := { g2.status with round := "flop" } },
            GameEvent.flopRoundEntered) := by
        rw [hbody, if_neg halive2', if_pos (show g2.status.round = "preflop" from
          hround2.trans h)]
      refine ⟨_, _, hnr, rfl, rfl, rfl, rfl, rfl, hplayers, fun ha => absurd ha halive,
        fun hx => ?_⟩
      rw [h] at hx
      exact absurd hx (by decide)
    · have hne1 : ¬ g2.status.round = "preflop" := by
        rw [hround2, h]
        decide
      have hnr : nextRound g =
          some ({ g2 with status := { g2.status with round := "turn" } },
            GameEvent.turnRoundEntered) := by
        rw [hbody, if_neg halive2', if_neg hne1, if_pos (show g2.status.round = "flop" from
          hround2.trans h)]
      refine ⟨_, _, hnr, rfl, rfl, rfl, rfl, rfl, hplayers, fun ha => absurd ha halive,
        fun hx => ?_⟩
      rw [h] at hx
      exact absurd hx (by decide)
    · have hne1 : ¬ g2.status.round = "preflop" := by
        rw [hround2, h]
        decide
      have hne2 : ¬ g2.status.round = "flop" := by
        rw [hround2, h]
        decide
      have hnr : nextRound g =
          some ({ g2 with status := { g2.status with round := "river" } },
            GameEvent.riverRoundEntered) := by
        rw [hbody, if_neg halive2', if_neg hne1, if_neg hne2,
          if_pos (show g2.status.round = "turn" from hround2.trans h)]
      refine ⟨_, _, hnr, rfl, rfl, rfl, rfl, rfl, hplayers, fun ha => absurd ha halive,
        fun hx => ?_⟩
      rw [h] at hx
      exact absurd hx (by decide)
    · have hne1 : ¬ g2.status.round = "preflop" := by
        rw [hround2, h]
        decide
      have hne2 : ¬ g2.status.round = "flop" := by
        rw [hround2, h]
        decide
      have hne3 : ¬ g2.status.round = "turn" := by
        rw [hround2, h]
        decide
      have hnr : nextRound g = some (g2, GameEvent.gameCompleted) := by
        rw [hbody, if_neg halive2', if_neg hne1, if_neg hne2, if_neg hne3,
          if_pos (show g2.status.round = "river" from hround2.trans h)]
      exact ⟨g2, GameEvent.gameCompleted, hnr, rfl, rfl, rfl, rfl, rfl, hplayers,
        fun ha => absurd ha halive, fun _ => ⟨rfl, rfl, rfl, rfl⟩⟩

/-- Claim C6: in the four betting rounds `Next` zeroes
`previousRaiseSize`, `currentWager`, `maxWager` and `currentRoundPot`,
points the current raiser at the dealer seat, rolls every wager into the
player's pot while snapshotting `initialStackSize := stackSize`; with a
single alive player it emits `GameCompleted` without touching board, deck
cursor or burned pile, and a river `Next` likewise emits
`GameCompleted`. -/
theorem next_round_resets (gs : GameState) (d : PlayerState)
    (hr : gs.status.round = "preflop" ∨ gs.status.round = "flop" ∨
      gs.status.round = "turn" ∨ gs.status.round = "river")
    (hd : dealerOf gs = some d) :
    ∃ gs1 ev, nextOp gs = some (gs1, some ev) ∧
      gs1.status.previousRaiseSize = 0 ∧ gs1.status.currentWager = 0 ∧
      gs1.status.maxWager = 0 ∧ gs1.status.currentRoundPot = 0 ∧
      gs1.status.currentRaiser = d.idx ∧
      (∀ i : Fin gs.players.length, ∃ h : (i : Nat) < gs1.players.length,
        (gs1.players.get ⟨i, h⟩).pot = (gs.players.get i).pot + (gs.players.get i).wager ∧
          (gs1.players.get ⟨i, h⟩).wager = 0 ∧
          (gs1.players.get ⟨i, h⟩).initialStackSize = (gs.players.get i).stackSize) ∧
      (getAlivePlayerCount gs = 1 →
        ev = GameEvent.gameCompleted ∧ gs1.status.board = gs.status.board ∧
          gs1.status.currentDeckPosition = gs.status.currentDeckPosition ∧
          gs1.status.burned = gs.status.burned) ∧
      (gs.status.round = "river" → ev = GameEvent.gameCompleted) := by
  obtain ⟨g1, ev, hnr, hprs, hcw, hmw, hcrp, hraiser, hplayers, hone, hriver⟩ :=
    nextRound_spec (updateLastAction gs (-1) "next" 0) d hd hr
  refine ⟨g1, ev, ?_, hprs, hcw, hmw, hcrp, hraiser, hplayers, hone,
    fun hx => (hriver hx).1⟩
  have hr' : (updateLastAction gs (-1) "next" 0).status.round = "preflop" ∨
      (updateLastAction gs (-1) "next" 0).status.round = "flop" ∨
      (updateLastAction gs (-1) "next" 0).status.round = "turn" ∨
      (updateLastAction gs (-1) "next" 0).status.round = "river" := hr
  show (if (updateLastAction gs (-1) "next" 0).status.round = "preflop" ∨
        (updateLastAction gs (-1) "next" 0).status.round = "flop" ∨
        (updateLastAction gs (-1) "next" 0).status.round = "turn" ∨
        (updateLastAction gs (-1) "next" 0).status.round = "river" then
      (nextRound (updateLastAction gs (-1) "next" 0)).map (fun r => (r.1, some r.2))
    else some (updateLastAction gs (-1) "next" 0, none)) = some (g1, some ev)
  rw [if_pos hr', hnr]
  rfl

/-- Witness for C6: a river `Next` on `wgs6` completes the hand with the
round status zeroed. -/
theorem next_round_resets_witness :
    ∃ gs1 ev, nextOp wgs6 = some (gs1, some ev) ∧
      gs1.status.previousRaiseSize = 0 ∧ gs1.status.currentWager = 0 ∧
      gs1.status.maxWager = 0 ∧ gs1.status.currentRoundPot = 0 ∧
      gs1.status.currentRaiser = wd6.idx ∧
      (∀ i : Fin wgs6.players.length, ∃ h : (i : Nat) < gs1.players.length,
        (gs1.players.get ⟨i, h⟩).pot =
            (wgs6.players.get i).pot + (wgs6.players.get i).wager ∧
          (gs1.players.get ⟨i, h⟩).wager = 0 ∧
          (gs1.players.get ⟨i, h⟩).initialStackSize = (wgs6.players.get i).stackSize) ∧
      (getAlivePlayerCount wgs6 = 1 →
        ev = GameEvent.gameCompleted ∧ gs1.status.board = wgs6.status.board ∧
          gs1.status.currentDeckPosition = wgs6.status.currentDeckPosition ∧
          gs1.status.burned = wgs6.status.burned) ∧
      (wgs6.status.round = "river" → ev = GameEvent.gameCompleted) :=
  next_round_resets wgs6 wd6 (Or.inr (Or.inr (Or.inr (by decide)))) (by decide)

theorem sum_map_eq (l : List PlayerState) (f g : PlayerState → Int)
    (h : ∀ p ∈ l, f p = g p) : (l.map f).sum = (l.map g).sum := by
  induction l with
  | nil => rfl
  | cons a t ih =>
    simp only [List.map_cons, List.sum_cons]
    rw [h a (List.mem_cons_self a t), ih (fun p hp => h p (List.mem_cons_of_mem a hp))]

theorem chipSum_players_map (gs : GameState) (st : Status) (f : PlayerState → PlayerState)
    (hf : ∀ p, (f p).stackSize + (f p).wager + (f p).pot = p.stackSize + p.wager + p.pot)
    (hpots : st.pots = gs.status.pots) :
    chipSum { meta := gs.meta, status := st, players := gs.players.map f } = chipSum gs := by
  unfold chipSum
  simp only [List.map_map]
  rw [hpots]
  congr 1
  exact sum_map_eq _ _ _ (fun p _ => hf p)

theorem resetPlayerStatus_stack (p : PlayerState) :
    (resetPlayerStatus p).stackSize = p.stackSize := by
  simp only [resetPlayerStatus]
  split
  · rfl
  · split <;> rfl

theorem becomeRaiser_chipSum (gs : GameState) (i : Int) :
    chipSum (becomeRaiser gs i) = chipSum gs := by
  simp only [becomeRaiser, updatePlayer, chipSum, List.map_map]
  congr 1
  refine sum_map_eq _ _ _ (fun p _ => ?_)
  by_cases h1 : p.idx = i <;> by_cases h2 : 0 < p.wager <;>
    simp [Function.comp, h1, h2]

theorem resetAllPlayerStatus_chipSum (g : GameState) :
    chipSum (resetAllPlayerStatus g) = chipSum g := by
  simp only [resetAllPlayerStatus, chipSum, List.map_map]
  congr 1
  refine sum_map_eq _ _ _ (fun p _ => ?_)
  simp only [Function.comp, resetPlayerStatus_stack, resetPlayerStatus_wager,
    resetPlayerStatus_pot]
  ring

theorem nextRound_chipSum (g g1 : GameState) (ev : GameEvent)
    (h : nextRound g = some (g1, ev)) : chipSum g1 = chipSum g := by
  unfold nextRound at h
  cases hrr : resetRoundStatus g with
  | none =>
    rw [hrr] at h
    simp at h
  | some gB =>
    rw [hrr] at h
    have hB : chipSum gB = chipSum g := by
      unfold resetRoundStatus at hrr
      cases hd : dealerOf g with
      | none =>
        rw [hd] at hrr
        simp at hrr
      | some d =>
        rw [hd] at hrr
        simp only [Option.map_some'] at hrr
        obtain rfl := (Option.some.inj hrr).symm
        rfl
    have hC : chipSum (resetAllPlayerStatus gB) = chipSum g :=
      (resetAllPlayerStatus_chipSum gB).trans hB
    replace h : (if getAlivePlayerCount (resetAllPlayerStatus gB) = 1 then
          some (resetAllPlayerStatus gB, GameEvent.gameCompleted)
        else if (resetAllPlayerStatus gB).status.round = "preflop" then
          some ({ resetAllPlayerStatus gB with status :=
            { (resetAllPlayerStatus gB).status with round := "flop" } },
            GameEvent.flopRoundEntered)
        else if (resetAllPlayerStatus gB).status.round = "flop" then
          some ({ resetAllPlayerStatus gB with status :=
            { (resetAllPlayerStatus gB).status with round := "turn" } },
            GameEvent.turnRoundEntered)
        else if (resetAllPlayerStatus gB).status.round = "turn" then
          some ({ resetAllPlayerStatus gB with status :=
            { (resetAllPlayerStatus gB).status with round := "river" } },
            GameEvent.riverRoundEntered)
        else if (resetAllPlayerStatus gB).status.round = "river" then
          some (resetAllPlayerStatus gB, GameEvent.gameCompleted)
        else none) = some (g1, ev) := h
    split at h
    · simp only [Option.some.injEq, Prod.mk.injEq] at h
      obtain ⟨h1, _⟩ := h
      subst h1
      exact hC
    · split at h
      · simp only [Option.some.injEq, Prod.mk.injEq] at h
        obtain ⟨h1, _⟩ := h
        subst h1
        exact hC
      · split at h
        · simp only [Option.some.injEq, Prod.mk.injEq] at h
          obtain ⟨h1, _⟩ := h
          subst h1
          exact hC
        · split at h
          · simp only [Option.some.injEq, Prod.mk.injEq] at h
            obtain ⟨h1, _⟩ := h
            subst h1
            exact hC
          · split at h
            · simp only [Option.some.injEq, Prod.mk.injEq] at h
              obtain ⟨h1, _⟩ := h
              subst h1
              exact hC
            · simp at h

theorem nextOp_chipSum (gs g1 : GameState) (e : Option GameEvent)
    (h : nextOp gs = some (g1, e)) : chipSum g1 = chipSum gs := by
  unfold nextOp at h
  replace h : (if (updateLastAction gs (-1) "next" 0).status.round = "preflop" ∨
        (updateLastAction gs (-1) "next" 0).status.round = "flop" ∨
        (updateLastAction gs (-1) "next" 0).status.round = "turn" ∨
        (updateLastAction gs (-1) "next" 0).status.round = "river" then
      Option.map (fun r => (r.1, some r.2)) (nextRound (updateLastAction gs (-1) "next" 0))
    else some (updateLastAction gs (-1) "next" 0, none)) = some (g1, e) := h
  split at h
  · cases hnr : nextRound (updateLastAction gs (-1) "next" 0) with
    | none =>
      rw [hnr] at h
      simp at h
    | some r =>
      rw [hnr] at h
      simp only [Option.map_some'] at h
      simp only [Option.some.injEq, Prod.mk.injEq] at h
      obtain ⟨h1, _⟩ := h
      subst h1
      exact nextRound_chipSum (updateLastAction gs (-1) "next" 0) r.1 r.2 hnr
  · simp only [Option.some.injEq, Prod.mk.injEq] at h
    obtain ⟨h1, _⟩ := h
    subst h1
    rfl

theorem opPayAnte_chipSum (gs gs1 : GameState) (h : opPayAnte gs = some gs1) :
    chipSum gs1 = chipSum gs := by
  unfold opPayAnte at h
  obtain rfl := (Option.some.inj h).symm
  exact chipSum_players_map gs gs.status _
    (fun p => by dsimp only; ring) rfl

theorem opPayBlinds_chipSum (gs gs1 : GameState) (h : opPayBlinds gs = some gs1) :
    chipSum gs1 = chipSum gs := by
  unfold opPayBlinds at h
  dsimp only at h
  obtain rfl := (Option.some.inj h).symm
  exact chipSum_players_map gs _ _
    (fun p => by dsimp only; ring) rfl

theorem opCall_chipSum (gs gs1 : GameState) (h : opCall gs = some gs1) :
    chipSum gs1 = chipSum gs := by
  unfold opCall at h
  cases hcp : currentPlayerOf gs with
  | none =>
    rw [hcp] at h
    simp at h
  | some p =>
    rw [hcp] at h
    simp only [Option.bind_eq_bind, Option.some_bind] at h
    split at h
    · obtain rfl := (Option.some.inj h).symm
      exact chipSum_players_map gs _ _
        (fun q => by by_cases hq : q.idx = p.idx <;> simp [hq, payChips] <;> try ring) rfl
    · simp at h

theorem opBet_chipSum (gs : GameState) (c : Int) (gs1 : GameState)
    (h : opBet gs c = some gs1) : chipSum gs1 = chipSum gs := by
  unfold opBet at h
  cases hcp : currentPlayerOf gs with
  | none =>
    rw [hcp] at h
    simp at h
  | some p =>
    rw [hcp] at h
    simp only [Option.bind_eq_bind, Option.some_bind] at h
    split at h
    · obtain rfl := (Option.some.inj h).symm
      refine (becomeRaiser_chipSum _ p.idx).trans ?_
      exact chipSum_players_map gs _ _
        (fun q => by by_cases hq : q.idx = p.idx <;> simp [hq, payChips] <;> try ring) rfl
    · simp at h

theorem opRaise_chipSum (gs : GameState) (c : Int) (gs1 : GameState)
    (h : opRaise gs c = some gs1) : chipSum gs1 = chipSum gs := by
  unfold opRaise at h
  cases hcp : currentPlayerOf gs with
  | none =>
    rw [hcp] at h
    simp at h
  | some p =>
    rw [hcp] at h
    simp only [Option.bind_eq_bind, Option.some_bind] at h
    split at h
    · obtain rfl := (Option.some.inj h).symm
      refine (becomeRaiser_chipSum _ p.idx).trans ?_
      exact chipSum_players_map gs _ _
        (fun q => by by_cases hq : q.idx = p.idx <;> simp [hq, payChips] <;> try ring) rfl
    · simp at h

theorem opAllin_chipSum (gs gs1 : GameState) (h : opAllin gs = some gs1) :
    chipSum gs1 = chipSum gs := by
  unfold opAllin at h
  cases hcp : currentPlayerOf gs with
  | none =>
    rw [hcp] at h
    simp at h
  | some p =>
    rw [hcp] at h
    simp only [Option.bind_eq_bind, Option.some_bind] at h
    have hmap : ∀ q : PlayerState,
        (if q.idx = p.idx then
            { payChips q.stackSize q with didAction := "allin" }
          else q).stackSize +
          (if q.idx = p.idx then
            { payChips q.stackSize q with didAction := "allin" }
          else q).wager +
          (if q.idx = p.idx then
            { payChips q.stackSize q with didAction := "allin" }
          else q).pot = q.stackSize + q.wager + q.pot := by
      intro q
      by_cases hq : q.idx = p.idx <;> simp [hq, payChips] <;> try ring
    split at h
    · split at h
      · split at h
        · obtain rfl := (Option.some.inj h).symm
          refine (becomeRaiser_chipSum _ p.idx).trans ?_
          exact chipSum_players_map gs _ _ hmap rfl
        · obtain rfl := (Option.some.inj h).symm
          exact chipSum_players_map gs _ _ hmap rfl
      · obtain rfl := (Option.some.inj h).symm
        exact chipSum_players_map gs _ _ hmap rfl
    · simp at h

theorem opFold_chipSum (gs gs1 : GameState) (h : opFold gs = some gs1) :
    chipSum gs1 = chipSum gs := by
  unfold opFold at h
  cases hcp : currentPlayerOf gs with
  | none =>
    rw [hcp] at h
    simp at h
  | some p =>
    rw [hcp] at h
    simp only [Option.bind_eq_bind, Option.some_bind] at h
    split at h
    · obtain rfl := (Option.some.inj h).symm
      exact chipSum_players_map gs gs.status _
        (fun q => by by_cases hq : q.idx = p.idx <;> simp [hq]) rfl
    · simp at h

theorem opCheck_chipSum (gs gs1 : GameState) (h : opCheck gs = some gs1) :
    chipSum gs1 = chipSum gs := by
  unfold opCheck at h
  cases hcp : currentPlayerOf gs with
  | none =>
    rw [hcp] at h
    simp at h
  | some p =>
    rw [hcp] at h
    simp only [Option.bind_eq_bind, Option.some_bind] at h
    split at h
    · obtain rfl := (Option.some.inj h).symm
      exact chipSum_players_map gs gs.status _
        (fun q => by by_cases hq : q.idx = p.idx <;> simp [hq]) rfl
    · simp at h

theorem opPass_chipSum (gs gs1 : GameState) (h : opPass gs = some gs1) :
    chipSum gs1 = chipSum gs := by
  unfold opPass at h
  cases hcp : currentPlayerOf gs with
  | none =>
    rw [hcp] at h
    simp at h
  | some p =>
    rw [hcp] at h
    simp only [Option.bind_eq_bind, Option.some_bind] at h
    split at h
    · obtain rfl := (Option.some.inj h).symm
      exact chipSum_players_map gs gs.status _
        (fun q => by by_cases hq : q.idx = p.idx <;> simp [hq]) rfl
    · simp at h

theorem applyOp_chipSum (op : Op) (gs gs1 : GameState) (h : applyOp op gs = some gs1) :
    chipSum gs1 = chipSum gs := by
  cases op with
  | payAnte => exact opPayAnte_chipSum gs gs1 h
  | payBlinds => exact opPayBlinds_chipSum gs gs1 h
  | call => exact opCall_chipSum gs gs1 h
  | raiseTo c => exact opRaise_chipSum gs c gs1 h
  | bet c => exact opBet_chipSum gs c gs1 h
  | allin => exact opAllin_chipSum gs gs1 h
  | fold => exact opFold_chipSum gs gs1 h
  | check => exact opCheck_chipSum gs gs1 h
  | pass => exact opPass_chipSum gs gs1 h
  | next =>
    simp only [applyOp] at h
    cases hno : nextOp gs with
    | none =>
      rw [hno] at h
      simp at h
    | some r =>
      rw [hno] at h
      simp only [Option.map_some'] at h
      obtain rfl := (Option.some.inj h).symm
      exact nextOp_chipSum gs r.1 r.2 hno
  | readyForAll =>
    simp only [applyOp, opReadyForAll] at h
    obtain rfl := (Option.some.inj h).symm
    rfl

theorem runOps_chipSum : ∀ (ops : List Op) (gs gs1 : GameState),
    runOps ops gs = some gs1 → chipSum gs1 = chipSum gs := by
  intro ops
  induction ops with
  | nil =>
    intro gs gs1 h
    obtain rfl := (Option.some.inj h).symm
    rfl
  | cons op ops ih =>
    intro gs gs1 h
    unfold runOps at h
    cases ha : applyOp op gs with
    | none =>
      rw [ha] at h
      simp at h
    | some gsm =>
      rw [ha] at h
      exact (ih gsm gs1 h).trans (applyOp_chipSum op gs gsm ha)

/-- Claim C1: chip conservation — from any freshly started game, after any
accepted sequence of `PayAnte`, `PayBlinds`, `Call`, `Raise`, `Bet`,
`Allin`, `Fold`, `Check`, `Pass`, `Next` and `ReadyForAll` operations,
the sum over all players of stack + wager + pot plus the pot-layer totals
equals the sum of the players' initial bankrolls. -/
theorem chip_conservation (ops : List Op) (gs gs1 : GameState)
    (hfresh : freshlyStarted gs) (hrun : runOps ops gs = some gs1) :
    chipSum gs1 = (gs.players.map (fun p => p.bankroll)).sum := by
  rw [runOps_chipSum ops gs gs1 hrun]
  obtain ⟨hp, hpots⟩ := hfresh
  unfold chipSum
  rw [hpots]
  simp only [List.map_nil, List.sum_nil, add_zero]
  refine sum_map_eq _ _ _ (fun p hmem => ?_)
  obtain ⟨h1, h2, h3⟩ := hp p hmem
  rw [h1, h2, h3]
  ring

/-- Witness for C1: the heads-up game `wC1` after blinds and a call keeps
the 200-chip total. -/
theorem chip_conservation_witness :
    chipSum wC1out = (wC1.players.map (fun p => p.bankroll)).sum :=
  chip_conservation wC1ops wC1 wC1out (by decide) (by decide)

end Pokerlib
